import Mathlib

/-!
Verification of the task-execution engine of the `ai-browser-agent` repository:
a shallow embedding of the orchestrator loop (`src/agents/orchestrator.py`),
the conversation-context manager (`src/context/manager.py`), the security gate
(`src/agents/security.py`) and the tool-dispatch protocol, together with
theorems settling the specification claims about them.

Python strings are modelled as Lean `String`, with the operations used by the
code (slicing, `in`, `startswith`, `lower`, `len`) defined on the underlying
character list so that every proof can compute.
-/

namespace AIBrowserAgent

/-- Python `len(s)` on a string. -/
def pyLen (s : String) : Nat := s.data.length

/-- Python `s[:n]` on a string. -/
def pyTake (s : String) (n : Nat) : String := String.mk (s.data.take n)

/-- Python `pre in s` style membership used by `startswith`: `s.startswith(pre)`. -/
def pyStartswith (s pre : String) : Bool := pre.data.isPrefixOf s.data

/-- Python substring test `pat in hay`: `pat` occurs contiguously in `hay`
(the empty pattern matches everywhere, as in Python). -/
def pyIn (pat hay : String) : Bool := hay.data.tails.any (fun t => pat.data.isPrefixOf t)

/-- Python `s.lower()` (ASCII-adequate for the patterns the code uses). -/
def pyLower (s : String) : String := String.mk (s.data.map Char.toLower)

/-- Python list slice `l[-w:]` (for `w = 0` the slice is the whole list). -/
def pySliceLast (w : Nat) (l : List α) : List α :=
  if w = 0 then l else l.drop (l.length - w)

/-- One entry of the conversation buffer: a Python dict
`\x7b"role": ..., "content": ...\x7d` from `manager.py`. -/
structure Message where
  role : String
  content : String
deriving DecidableEq, Repr

/-- A `collections.deque` with `maxlen` keeps only the newest `maxlen` entries:
appending to a full deque drops the oldest entry. -/
def dequeAppend (maxlen : Nat) (l : List Message) (m : Message) : List Message :=
  let l2 := l ++ [m]
  l2.drop (l2.length - maxlen)

/-- State of `ContextManager` (`src/context/manager.py`): token budget, sliding
window size, the message deque (`maxlen = 2 * sliding_window_size`) and the
system message. The token counter `llm_client.count_tokens` is an external
collaborator and is passed to the operations as a function argument `tc`. -/
structure ContextManager where
  maxTokens : Nat
  slidingWindowSize : Nat
  messageHistory : List Message
  systemMessage : Message
deriving DecidableEq, Repr

namespace ContextManager

/-- `ContextManager.set_system_message`. -/
def set_system_message (cm : ContextManager) (content : String) : ContextManager :=
  { cm with systemMessage := ⟨"system", content⟩ }

/-- `ContextManager.add_user_message` (deque append with `maxlen = 2 * window`). -/
def add_user_message (cm : ContextManager) (content : String) : ContextManager :=
  { cm with messageHistory :=
      dequeAppend (2 * cm.slidingWindowSize) cm.messageHistory ⟨"user", content⟩ }

/-- `ContextManager.add_assistant_message`. -/
def add_assistant_message (cm : ContextManager) (content : String) : ContextManager :=
  { cm with messageHistory :=
      dequeAppend (2 * cm.slidingWindowSize) cm.messageHistory ⟨"assistant", content⟩ }

/-- `ContextManager.add_tool_result`: the result is recorded as a user-role
message whose content carries the `TOOL RESULT [name]: ...` prefix. -/
def add_tool_result (cm : ContextManager) (tool_name result : String) : ContextManager :=
  let msg : Message := ⟨"user", "TOOL RESULT [" ++ tool_name ++ "]: " ++ result⟩
  { cm with messageHistory :=
      dequeAppend (2 * cm.slidingWindowSize) cm.messageHistory msg }

/-- `ContextManager._count_messages_tokens`. -/
def count_messages_tokens (tc : String → Nat) (messages : List Message) : Nat :=
  messages.foldl (fun acc m => acc + tc m.content) 0

/-- `ContextManager.clear_history` (defined in the source, called from nowhere). -/
def clear_history (cm : ContextManager) : ContextManager :=
  { cm with messageHistory := [] }

end ContextManager

/-- The in-place content truncation step of `_compress_messages` (lines 127-134
of `manager.py`): a non-system message that is not a `TOOL RESULT` and whose
content is longer than 5000 characters is cut to its first 4500 characters plus
the truncation marker; every other message is left untouched. -/
def truncLong (m : Message) : Message :=
  if m.role ≠ "system" ∧ pyStartswith m.content "TOOL RESULT" = false ∧ pyLen m.content > 5000
  then { m with content := String.mk ((m.content.data.take 4500) ++ ("... [truncated]").data) }
  else m

namespace ContextManager

/-- First stage of `_compress_messages`: keep the (last) system message and the
most recent `sliding_window_size` non-system messages (Python slice `[-W:]`). -/
def compress_stage1 (cm : ContextManager) (messages : List Message) : List Message :=
  (match (messages.filter (fun m => m.role == "system")).getLast? with
   | some s => [s]
   | none => []) ++
    pySliceLast cm.slidingWindowSize (messages.filter (fun m => m.role != "system"))

/-- `ContextManager._compress_messages`: window re-slice, then, if the slice is
still over the token budget, selective content truncation. -/
def compress_messages (tc : String → Nat) (cm : ContextManager)
    (messages : List Message) : List Message :=
  if count_messages_tokens tc (cm.compress_stage1 messages) > cm.maxTokens
  then (cm.compress_stage1 messages).map truncLong
  else cm.compress_stage1 messages

end ContextManager

/-- Index-based description of the in-place mutation `_compress_messages`
performs on the dicts stored in the deque: walking the history, the `j`-th
non-system entry is truncated exactly when it falls inside the Python slice
`[-W:]` of the non-system entries (i.e. when `start ≤ j`). -/
def markMutGo (start : Nat) : Nat → List Message → List Message
  | _, [] => []
  | j, m :: rest =>
      if m.role == "system" then m :: markMutGo start j rest
      else (if start ≤ j then truncLong m else m) :: markMutGo start (j + 1) rest

/-- The stored history after the truncation loop of `_compress_messages` has
run over aliased dicts: the non-system entries surviving the `[-W:]` slice are
truncated in place, everything else is untouched. -/
def mutateHistory (w : Nat) (hist : List Message) : List Message :=
  let ns := (hist.filter (fun m => m.role != "system")).length
  let start := if w = 0 then 0 else ns - w
  markMutGo start 0 hist

namespace ContextManager

/-- The list `get_messages` assembles before the token check: the system
message (when included and non-empty) followed by the history. -/
def messagesBase (cm : ContextManager) (include_system : Bool) : List Message :=
  (if include_system && cm.systemMessage.content != "" then [cm.systemMessage] else [])
    ++ cm.messageHistory

/-- The deque contents after a `get_messages` call: when the compression pass
runs its truncation loop (slice still over budget), the surviving history
dicts are rewritten in place. -/
def get_messages_hist (tc : String → Nat) (cm : ContextManager)
    (include_system : Bool) : List Message :=
  if count_messages_tokens tc (cm.compress_stage1 (cm.messagesBase include_system)) > cm.maxTokens
  then mutateHistory cm.slidingWindowSize cm.messageHistory
  else cm.messageHistory

/-- `ContextManager.get_messages` with its state effect made explicit: returns
the message list handed to the decision-maker together with the manager state
afterwards.  The compression pass mutates the `content` of the surviving
history dicts in place (the list it builds holds references into the deque),
which `get_messages_hist` records via `mutateHistory` — the slice positions
correspond because the add-methods only ever store non-system roles and
`set_system_message` keeps the system dict at role `"system"`, which the
truncation loop skips, so the system dict itself is never rewritten. -/
def get_messages (tc : String → Nat) (cm : ContextManager)
    (include_system : Bool) : List Message × ContextManager :=
  if count_messages_tokens tc (cm.messagesBase include_system) > cm.maxTokens then
    (cm.compress_messages tc (cm.messagesBase include_system),
     { cm with messageHistory := cm.get_messages_hist tc include_system })
  else (cm.messagesBase include_system, cm)

end ContextManager

/-! ## JSON values, action arguments and tool results (orchestrator side) -/

/-- A JSON-decoded value as produced by `json.loads` on a tool call's
arguments (`llm_client.py` lines 140, 203). -/
inductive JVal where
  | str (s : String)
  | bool (b : Bool)
  | num (n : Int)
  | null
deriving DecidableEq, Repr

/-- Python `str(...)` of a JSON value; the declared schema types the arguments
read this way as strings, so the non-`str` rows exist only for totality. -/
def JVal.asPyStr : JVal → String
  | .str s => s
  | .bool true => "True"
  | .bool false => "False"
  | .num n => toString n
  | .null => "None"

/-- Python truthiness of a JSON value. -/
def JVal.truthy : JVal → Bool
  | .str s => s ≠ ""
  | .bool b => b
  | .num n => n ≠ 0
  | .null => false

/-- Rendering of a JSON value by `json.dumps` (escaping of special characters
inside strings is elided; no theorem inspects the escaped form). -/
def JVal.dump : JVal → String
  | .str s => "\"" ++ s ++ "\""
  | .bool true => "true"
  | .bool false => "false"
  | .num n => toString n
  | .null => "null"

/-- The argument dict of a tool call: keys in insertion order. -/
def Args := List (String × JVal)

instance : DecidableEq Args := inferInstanceAs (DecidableEq (List (String × JVal)))

/-- Python `args[k]` lookup result (`none` means `KeyError`). -/
def Args.get? (a : Args) (k : String) : Option JVal :=
  (a.find? (fun p => p.1 == k)).map (fun p => p.2)

/-- Python `args.get(k, default)` for string-typed schema arguments. -/
def Args.getStr (a : Args) (k : String) (default : String) : String :=
  match a.get? k with
  | some v => v.asPyStr
  | none => default

/-- Python `args.get(k, default)` for the boolean `success` argument: a value
of another JSON type lands in the `bool`-annotated field and is read through
truthiness. -/
def Args.getBool (a : Args) (k : String) (default : Bool) : Bool :=
  match a.get? k with
  | some v => v.truthy
  | none => default

/-- A result dict as built by `_call_tool` / the security branch of
`_execute_tool_call`, in insertion order. -/
def ResultDict := List (String × JVal)

instance : DecidableEq ResultDict := inferInstanceAs (DecidableEq (List (String × JVal)))

/-- Key lookup in a result dict. -/
def ResultDict.get? (r : ResultDict) (k : String) : Option JVal :=
  (r.find? (fun p => p.1 == k)).map (fun p => p.2)

/-- `json.dumps` of a result dict (same caveat on string escaping as
`JVal.dump`). -/
def jsonDumps (r : ResultDict) : String :=
  "\x7b" ++ String.intercalate ", " (r.map (fun p => "\"" ++ p.1 ++ "\": " ++ p.2.dump)) ++ "\x7d"

/-! ## Declared action surface (`src/ai/tools.py`) -/

/-- The name and `required` argument list of one entry of `BROWSER_TOOLS`
(the rest of the schema plays no role in any claim). -/
structure ToolSchema where
  name : String
  required : List String
deriving DecidableEq, Repr

/-- The declared action surface `BROWSER_TOOLS` from `src/ai/tools.py`,
restricted to the names and `required` lists. -/
def BROWSER_TOOLS : List ToolSchema :=
  [⟨"click", ["selector", "reason"]⟩,
   ⟨"type_text", ["selector", "text", "reason"]⟩,
   ⟨"navigate", ["url", "reason"]⟩,
   ⟨"scroll", ["direction", "amount"]⟩,
   ⟨"go_back", []⟩,
   ⟨"extract_text", ["selector"]⟩,
   ⟨"wait", ["seconds", "reason"]⟩,
   ⟨"press_key", ["key", "reason"]⟩,
   ⟨"task_complete", ["result", "success"]⟩,
   ⟨"ask_user", ["question"]⟩]

/-! ## Security gate (`src/agents/security.py`) -/

/-- Verdict returned by `SecurityAgent.check_action`. -/
structure SecurityVerdict where
  safe : Bool
  reason : String
  requires_confirmation : Bool
deriving DecidableEq, Repr

/-- State of `SecurityAgent`: the enabled flag, the configured destructive
patterns, and the optional confirmation callback.  The callback is an external
collaborator; a registered one is modelled as a pure function of the action
name, its parameters and the flag reason (the loop suspends on it and resumes
deterministically with its answer). -/
structure SecState where
  enabled : Bool
  destructive_patterns : List String
  user_confirmation_callback : Option (String → Args → String → Bool)

/-- `SecurityAgent._is_destructive_action`: a `click` whose selector or stated
reason contains a configured destructive pattern (case-insensitive), or a
`type_text` whose selector suggests a payment field. -/
def is_destructive_action (patterns : List String) (action_name : String)
    (parameters : Args) : Bool × String :=
  match (if action_name == "click" then
          patterns.find? (fun p =>
            pyIn p (pyLower (parameters.getStr "selector" ""))
              || pyIn p (pyLower (parameters.getStr "reason" "")))
         else none) with
  | some p => (true, "Обнаружен деструктивный паттерн: \x27" ++ p ++ "\x27")
  | none =>
      if action_name == "type_text"
          && (["card", "payment", "cvv", "credit"].any (fun k =>
                pyIn k (pyLower (parameters.getStr "selector" ""))))
      then (true, "Попытка ввода платежных данных")
      else (false, "")

/-- `SecurityAgent.check_action`. -/
def check_action (sec : SecState) (action_name : String) (parameters : Args) :
    SecurityVerdict :=
  if sec.enabled = false then ⟨true, "Security layer отключен", false⟩
  else if (is_destructive_action sec.destructive_patterns action_name parameters).1 then
    match sec.user_confirmation_callback with
    | some cb =>
        if cb action_name parameters
            (is_destructive_action sec.destructive_patterns action_name parameters).2
        then ⟨true, "Подтверждено пользователем", false⟩
        else ⟨false, "Отклонено пользователем", false⟩
    | none => ⟨false, (is_destructive_action sec.destructive_patterns action_name parameters).2, true⟩
  else ⟨true, "Действие безопасно", false⟩

/-! ## Orchestrator (`src/agents/orchestrator.py`) -/

/-- The `TaskResult` dataclass. -/
structure TaskResult where
  success : Bool
  result : String
  steps_taken : Nat
  error : Option String := none
deriving DecidableEq, Repr

/-- One tool call from the decision-maker's response
(`tool_call["function"]`). -/
structure ToolCall where
  name : String
  args : Args

/-- A decision-maker response in the unified format of
`LLMClient.chat_completion`: optional narration text plus tool calls. -/
structure LLMResponse where
  content : Option String
  tool_calls : List ToolCall

/-- Outcome of one external collaborator call: a returned result dict, or a
raised exception carried as its `str(...)` text. -/
inductive CallOutcome where
  | ret (r : ResultDict)
  | exn (e : String)

/-- The browser collaborator (`BrowserAgent`): for each action name and
argument dict, the outcome of performing it.  External to the engine. -/
def BrowserOracle := String → Args → CallOutcome

/-- Mutable orchestrator fields touched by `execute_task` and the helpers
below (`task_id` regeneration is identity bookkeeping and is not modelled;
no claim concerns it). -/
structure OrchState where
  ctx : ContextManager
  current_step : Nat
  task_completed : Bool
  task_result : Option TaskResult

/-- Page observation as returned by `BrowserAgent.get_page_info`:
url, title, and `(id, type, label)` element records. -/
structure PageInfo where
  url : String
  title : String
  interactive_elements : List (String × String × String)

/-- `ContentCompressor.extract_essential_info` (`src/context/compression.py`):
keep url, title, and at most the first 100 interactive elements. -/
def extract_essential_info (page_info : PageInfo) : PageInfo :=
  { page_info with interactive_elements := page_info.interactive_elements.take 100 }

/-- Modelled from the spec: `src/ai/prompt_templates.py` (class
`PromptTemplates`) is imported by the orchestrator but absent from the
sources.  Per the spec the templates produce the seeded system text, the user
message carrying the task text, the planning message carrying the compressed
observation, and the recovery-framing message describing the error and the
current step; their concrete wording is unspecified, so they are carried as an
abstract record of text-producing functions. -/
structure PromptTemplates where
  system_prompt : String
  user_prompt_template : String → String
  planning_prompt : String → PageInfo → String
  error_recovery_prompt : String → String → String

/-- The `TaskResult` recorded by the `task_complete` branch of `_call_tool`
(lines 230-235): `success` defaults to `True`, `result` defaults to `""`,
`steps_taken` is the current step counter and `error` keeps its dataclass
default `None`. -/
def task_complete_result (args : Args) (step : Nat) : TaskResult :=
  ⟨args.getBool "success" true, args.getStr "result" "", step, none⟩

/-- The missing-key check performed by the `args[...]` subscripts at the top
of a dispatch branch, then the browser collaborator call: the first missing
key raises `KeyError` (caught by `_call_tool`, yielding its Python
`str(...)` form `\x27key\x27`); otherwise the action is performed and its
outcome returned, a raised exception again being caught into a failure dict.
The third component is the trace of browser actions actually executed. -/
def runBrowser (browser : BrowserOracle) (st : OrchState) (name : String)
    (args : Args) (keys : List String) :
    ResultDict × OrchState × List (String × Args) :=
  match keys.find? (fun k => (args.get? k).isNone) with
  | some k => ([("success", .bool false), ("error", .str ("\x27" ++ k ++ "\x27"))], st, [])
  | none =>
      match browser name args with
      | .ret r => (r, st, [(name, args)])
      | .exn e => ([("success", .bool false), ("error", .str e)], st, [])

/-- `OrchestratorAgent._call_tool`: the if/elif dispatch chain of lines
198-256, with the keys each branch subscripts directly (`args["selector"]`,
`args["text"]`, `args["url"]`, `args["direction"]`, `args["seconds"]`,
`args["key"]`) listed per branch; arguments read through `args.get(...)`
default silently. -/
def call_tool (browser : BrowserOracle) (st : OrchState) (tool_name : String)
    (args : Args) : ResultDict × OrchState × List (String × Args) :=
  if tool_name == "click" then runBrowser browser st tool_name args ["selector"]
  else if tool_name == "type_text" then runBrowser browser st tool_name args ["selector", "text"]
  else if tool_name == "navigate" then runBrowser browser st tool_name args ["url"]
  else if tool_name == "scroll" then runBrowser browser st tool_name args ["direction"]
  else if tool_name == "go_back" then runBrowser browser st tool_name args []
  else if tool_name == "extract_text" then runBrowser browser st tool_name args ["selector"]
  else if tool_name == "wait" then runBrowser browser st tool_name args ["seconds"]
  else if tool_name == "press_key" then runBrowser browser st tool_name args ["key"]
  else if tool_name == "task_complete" then
    ([("success", .bool true), ("message", .str "Задача завершена")],
     { st with task_completed := true,
               task_result := some (task_complete_result args st.current_step) }, [])
  else if tool_name == "ask_user" then
    ([("success", .bool false), ("message", .str "Требуется ответ пользователя"),
      ("question", .str (args.getStr "question" "")),
      ("user_input_required", .bool true)], st, [])
  else
    ([("success", .bool false), ("error", .str ("Неизвестный инструмент: " ++ tool_name))],
     st, [])

/-- The failure dict built by the security branch of `_execute_tool_call`
(lines 180-186): `requires_user_confirmation` is set exactly when confirmation
is pending. -/
def security_block_result (chk : SecurityVerdict) : ResultDict :=
  if chk.requires_confirmation then
    [("success", .bool false),
     ("error", .str ("Действие требует подтверждения: " ++ chk.reason)),
     ("requires_user_confirmation", .bool true)]
  else [("success", .bool false), ("error", .str chk.reason)]

/-- The last two lines of `_execute_tool_call`: record the dispatch outcome
into the buffer as a tool-result message. -/
def record_tool_result (name : String)
    (out : ResultDict × OrchState × List (String × Args)) :
    OrchState × List (String × Args) :=
  ({ out.2.1 with ctx := out.2.1.ctx.add_tool_result name (jsonDumps out.1) }, out.2.2)

/-- `OrchestratorAgent._execute_tool_call`: security gate first; a blocked
action is reported into the buffer as a failure dict (with
`requires_user_confirmation` when confirmation is pending) and the underlying
action is not dispatched; otherwise the tool is dispatched and its result
recorded.  The second component traces the browser actions executed. -/
def execute_tool_call (sec : SecState) (browser : BrowserOracle) (st : OrchState)
    (tool_call : ToolCall) : OrchState × List (String × Args) :=
  if sec.enabled then
    if (check_action sec tool_call.name tool_call.args).safe = false then
      let msg := jsonDumps (security_block_result (check_action sec tool_call.name tool_call.args))
      ({ st with ctx := st.ctx.add_tool_result tool_call.name msg }, [])
    else record_tool_result tool_call.name (call_tool browser st tool_call.name tool_call.args)
  else record_tool_result tool_call.name (call_tool browser st tool_call.name tool_call.args)

/-- The record-narration step at the top of `_process_llm_response`: Python's
`if response.get("content"):` appends only truthy (non-empty) text. -/
def add_content (st : OrchState) (content : Option String) : OrchState :=
  match content with
  | some c => if c ≠ "" then { st with ctx := st.ctx.add_assistant_message c } else st
  | none => st

/-- The `for tool_call in tool_calls:` loop of `_process_llm_response`,
executing strictly in order and accumulating the browser-action trace. -/
def exec_tool_calls (sec : SecState) (browser : BrowserOracle) :
    OrchState → List (String × Args) → List ToolCall → OrchState × List (String × Args)
  | st, acc, [] => (st, acc)
  | st, acc, c :: cs =>
      exec_tool_calls sec browser (execute_tool_call sec browser st c).1
        (acc ++ (execute_tool_call sec browser st c).2) cs

/-- `OrchestratorAgent._process_llm_response`: log and record non-empty
narration text, then execute the tool calls in order (an empty list is a
logged warning and a no-op, not an error). -/
def process_llm_response (sec : SecState) (browser : BrowserOracle) (st : OrchState)
    (response : LLMResponse) : OrchState × List (String × Args) :=
  exec_tool_calls sec browser (add_content st response.content) [] response.tool_calls

/-- Everything `execute_task` consumes from outside the per-step loop:
the security gate state, the browser oracle, the prompt templates, the token
counter of the decision-maker client, and the configured step budget. -/
structure OrchEnv where
  sec : SecState
  browser : BrowserOracle
  tmpl : PromptTemplates
  tc : String → Nat
  max_steps : Nat

/-- What the external collaborators do in one iteration of the main loop:
either the page observation and decision-maker call both succeed (carrying the
observation and the response), or one of them raises (carrying the error text
and whether `_attempt_recovery` itself succeeds — in the source the recovery
body only builds a prompt and appends it, so it fails only if that append
raises, which the model carries as the `recovery_ok` flag). -/
inductive StepEvent where
  | ok (page : PageInfo) (response : LLMResponse)
  | err (e : String) (recovery_ok : Bool)

/-- Outcome of one iteration of the `while` loop of `execute_task`: continue
with an updated state, or return early with a `TaskResult` (the state at the
early return is carried for the frame statements). -/
inductive IterOut where
  | cont (st : OrchState)
  | halt (r : TaskResult) (st : OrchState)

/-- Projections used to state loop-iteration properties. -/
def IterOut.stepOf : IterOut → Nat
  | .cont st => st.current_step
  | .halt _ st => st.current_step

/-- Whether the iteration continued the loop. -/
def IterOut.isCont : IterOut → Bool
  | .cont _ => true
  | .halt _ _ => false

/-- The completion flag of the carried state. -/
def IterOut.completedOf : IterOut → Bool
  | .cont st => st.task_completed
  | .halt _ st => st.task_completed

/-- The stored task result of the carried state. -/
def IterOut.resultOf : IterOut → Option TaskResult
  | .cont st => st.task_result
  | .halt _ st => st.task_result

/-- The state after the planning half of a successful iteration (lines
93-108): step counter incremented, observation compressed and appended as the
planning prompt, then `get_messages` assembled the buffer (with its in-place
truncation effect on the stored history). -/
def planning_state (env : OrchEnv) (task : String) (st : OrchState)
    (page : PageInfo) : OrchState :=
  let ctx2 := st.ctx.add_user_message (env.tmpl.planning_prompt task (extract_essential_info page))
  { st with current_step := st.current_step + 1, ctx := (ctx2.get_messages env.tc true).2 }

/-- The state after a successful `_attempt_recovery` (lines 117-123 plus
258-277): step counter incremented (the increment happened before the raise)
and the recovery-framing prompt appended; the prompt names the incremented
step. -/
def recovery_state (env : OrchEnv) (e : String) (st : OrchState) : OrchState :=
  let prompt := env.tmpl.error_recovery_prompt e ("Шаг " ++ toString (st.current_step + 1))
  { st with current_step := st.current_step + 1, ctx := st.ctx.add_user_message prompt }

/-- One iteration of the main loop of `execute_task` (lines 92-130):
increment the step counter, then either the full planning/acting body (fetch
observation, compress it, append the planning prompt, assemble the buffer and
process the decision-maker response), or the exception path through
`_attempt_recovery`: on successful recovery the recovery prompt is appended
and the loop continues; otherwise a failure `TaskResult` is returned (lines
125-130).  A raise inside the `try` body is modelled at its start; no claim
concerns the partial buffer appends of a failed iteration. -/
def execute_task_iter (env : OrchEnv) (task : String) (st : OrchState)
    (ev : StepEvent) : IterOut :=
  match ev with
  | .ok page response =>
      .cont (process_llm_response env.sec env.browser (planning_state env task st page) response).1
  | .err e recovery_ok =>
      if recovery_ok then .cont (recovery_state env e st)
      else
        .halt { success := false, result := "", steps_taken := st.current_step + 1,
                error := some e } { st with current_step := st.current_step + 1 }

/-- The `elif`/`else` returns of lines 135-149: the step-budget error when the
counter has reached the budget, the catch-all error otherwise. -/
def execute_task_overrun (max_steps : Nat) (st : OrchState) : TaskResult :=
  if st.current_step ≥ max_steps then
    ⟨false, "", st.current_step, some "Превышен лимит шагов"⟩
  else
    ⟨false, "", st.current_step, some "Неизвестная ошибка"⟩

/-- Lines 132-149 of `execute_task`: the returns after the loop.  Python's
`if self.task_completed and self.task_result:` tests the stored result for
truthiness, which for a dataclass instance means `is not None`. -/
def execute_task_finalize (max_steps : Nat) (st : OrchState) : TaskResult :=
  match st.task_result, st.task_completed with
  | some r, true => r
  | none, _ => execute_task_overrun max_steps st
  | some _, false => execute_task_overrun max_steps st

/-- The `while not self.task_completed and self.current_step < self.max_steps`
loop, fuelled by the remaining step budget (`execute_task` enters it with
`current_step = 0` and fuel `max_steps`, so fuel exhaustion coincides with
`current_step ≥ max_steps`).  `events` gives the collaborators' behaviour per
step counter value at loop entry. -/
def execute_task_loop (env : OrchEnv) (events : Nat → StepEvent) (task : String) :
    Nat → OrchState → TaskResult × OrchState
  | 0, st => (execute_task_finalize env.max_steps st, st)
  | fuel + 1, st =>
      if st.task_completed then (execute_task_finalize env.max_steps st, st)
      else
        match execute_task_iter env task st (events st.current_step) with
        | .cont st2 => execute_task_loop env events task fuel st2
        | .halt r st2 => (r, st2)

/-- Lines 74-89 of `execute_task`: reset the completion flag, the stored
result and the step counter, then re-seed the system message and append the
task text as a user message.  The source comment at line 79 announces clearing
the context history, but no call to `clear_history` (or any other clearing of
the deque) is made — the history of the previous task is retained. -/
def execute_task_init (tmpl : PromptTemplates) (st : OrchState) (task : String) :
    OrchState :=
  let st := { st with task_completed := false, task_result := none, current_step := 0 }
  let st := { st with ctx := st.ctx.set_system_message tmpl.system_prompt }
  { st with ctx := st.ctx.add_user_message (tmpl.user_prompt_template task) }

/-- `OrchestratorAgent.execute_task`: initialisation then the main loop.
Returns the `TaskResult` together with the orchestrator state at return. -/
def execute_task (env : OrchEnv) (events : Nat → StepEvent) (st : OrchState)
    (task : String) : TaskResult × OrchState :=
  execute_task_loop env events task env.max_steps (execute_task_init env.tmpl st task)

/-! ## Concrete instances used by witnesses and counterexamples -/

/-- The source's own token-estimation fallback `len(text) // 4`
(`llm_client.py` line 56), used as a concrete token counter. -/
def tcLen4 : String → Nat := fun s => pyLen s / 4

/-- A 5001-character content, just over the truncation threshold. -/
def bigA : String := String.mk (List.replicate 5001 'a')

/-- The content `bigA` is replaced with by the truncation step. -/
def truncA : String := String.mk (bigA.data.take 4500 ++ ("... [truncated]").data)

/-- A context manager holding one oversized user message, with a window of one
and a token budget of 10 (exceeded by the message). -/
def cm9 : ContextManager := ⟨10, 1, [⟨"user", bigA⟩], ⟨"system", ""⟩⟩

/-- The state `cm9` is left in after `get_messages`: the stored message has
been truncated in place. -/
def cm9T : ContextManager := ⟨10, 1, [⟨"user", truncA⟩], ⟨"system", ""⟩⟩

/-- A context manager with a zero token budget (everything is over budget). -/
def cmW : ContextManager := ⟨0, 1, [], ⟨"system", ""⟩⟩

/-- A tool-result message, as `add_tool_result` would store it. -/
def toolMsgW : Message := ⟨"user", "TOOL RESULT [click]: ok"⟩

/-- A browser oracle whose every action reports success. -/
def browserOkW : BrowserOracle := fun _ _ => .ret [("success", .bool true)]

/-- An empty conversation state with the default configuration
(`max_tokens = 16000`, `sliding_window_size = 25` from `config.py`). -/
def cmInitW : ContextManager := ⟨16000, 25, [], ⟨"system", ""⟩⟩

/-- A fresh orchestrator state over `cmInitW`. -/
def stInitW : OrchState := ⟨cmInitW, 0, false, none⟩

/-- A concrete prompt-template instance (the templates are spec-modelled; any
instance will do for witnesses). -/
def tmplW : PromptTemplates :=
  ⟨"SYSTEM PROMPT", fun t => t, fun t p => t ++ " @ " ++ p.url, fun e s => e ++ " " ++ s⟩

/-- A security state with one destructive pattern and no confirmation
handler. -/
def secDelW : SecState := ⟨true, ["delete"], none⟩

/-- A concrete orchestrator environment (step budget 5). -/
def envW : OrchEnv := ⟨secDelW, browserOkW, tmplW, tcLen4, 5⟩

/-- Collaborator behaviour where every step raises and recovery fails. -/
def eventsFailW : Nat → StepEvent := fun _ => .err "boom" false

/-- Collaborator behaviour where every step returns an empty decision. -/
def eventsIdleW : Nat → StepEvent := fun _ => .ok ⟨"u", "t", []⟩ ⟨none, []⟩

/-- Required arguments of a declared action, per `BROWSER_TOOLS`. -/
def toolRequired (n : String) : List String :=
  ((BROWSER_TOOLS.find? (fun t => t.name == n)).map (fun t => t.required)).getD []

/-- The argument keys each `_call_tool` branch subscripts directly
(`args[...]`); the other arguments, required or not, are read through
`args.get(...)` with a default and never raise. -/
def dispatchIndexedKeys (n : String) : List String :=
  if n == "click" then ["selector"]
  else if n == "type_text" then ["selector", "text"]
  else if n == "navigate" then ["url"]
  else if n == "scroll" then ["direction"]
  else if n == "extract_text" then ["selector"]
  else if n == "wait" then ["seconds"]
  else if n == "press_key" then ["key"]
  else []

/-- The failure dict of the confirmation-pending security branch
(`_execute_tool_call` lines 182-184). -/
def confirmation_required_result (reason : String) : ResultDict :=
  [("success", .bool false),
   ("error", .str ("Действие требует подтверждения: " ++ reason)),
   ("requires_user_confirmation", .bool true)]

/-- The orchestrator state after the security gate blocks an action pending
confirmation: only the buffer changes, by one recorded failure dict. -/
def add_blocked (st : OrchState) (name reason : String) : OrchState :=
  { st with ctx := st.ctx.add_tool_result name (jsonDumps (confirmation_required_result reason)) }

/-- The failure dict of the unknown-tool branch of `_call_tool` (line 252). -/
def unknown_tool_result (name : String) : ResultDict :=
  [("success", .bool false), ("error", .str ("Неизвестный инструмент: " ++ name))]

/-- A `click` request that omits the schema-required `reason` argument. -/
def argsClickNoReason : Args := [("selector", JVal.str "#b")]

/-- A `click` request whose selector matches the destructive pattern
`"delete"`. -/
def argsDeleteClick : Args :=
  [("selector", JVal.str "#delete-btn"), ("reason", JVal.str "очистить корзину")]

/-- An orchestrator state left over from a completed previous task: the
conversation history still holds a message of that task. -/
def stPrevTask : OrchState :=
  ⟨⟨16000, 25, [⟨"user", "сообщение предыдущей задачи"⟩], ⟨"system", "SYS"⟩⟩,
   3, true, some ⟨true, "готово", 3, none⟩⟩

/-! ## Lemmas on the truncation step and the compression stages -/

theorem truncLong_role (m : Message) : (truncLong m).role = m.role := by
  unfold truncLong
  split <;> rfl

theorem truncLong_of_system (m : Message) (h : m.role = "system") : truncLong m = m := by
  unfold truncLong
  rw [if_neg]
  intro hc
  exact hc.1 h

theorem truncLong_of_tool (m : Message)
    (h : pyStartswith m.content "TOOL RESULT" = true) : truncLong m = m := by
  unfold truncLong
  rw [if_neg]
  intro hc
  rw [h] at hc
  exact Bool.noConfusion hc.2.1

theorem truncLong_content_short (m : Message) (h : pyLen m.content ≤ 5000) :
    truncLong m = m := by
  unfold truncLong
  rw [if_neg]
  intro hc
  omega

theorem truncLong_idem (m : Message) : truncLong (truncLong m) = truncLong m := by
  by_cases h : m.role ≠ "system" ∧ pyStartswith m.content "TOOL RESULT" = false
      ∧ pyLen m.content > 5000
  · have h1 : truncLong m =
        { m with content := String.mk ((m.content.data.take 4500) ++ ("... [truncated]").data) } := by
      unfold truncLong
      rw [if_pos h]
    rw [h1]
    apply truncLong_content_short
    have h15 : (("... [truncated]").data).length = 15 := by decide
    simp only [pyLen, List.length_append, List.length_take, h15]
    omega
  · have h1 : truncLong m = m := by
      unfold truncLong
      rw [if_neg h]
    rw [h1, h1]

theorem pySliceLast_subset (w : Nat) (l : List α) : pySliceLast w l ⊆ l := by
  unfold pySliceLast
  split
  · exact fun _ h => h
  · exact List.drop_subset _ l

theorem pySliceLast_length_le (w : Nat) (l : List α) (hw : w ≠ 0) :
    (pySliceLast w l).length ≤ w := by
  unfold pySliceLast
  rw [if_neg hw]
  rw [List.length_drop]
  omega

theorem pySliceLast_of_short (w : Nat) (l : List α) (h : l.length ≤ w ∨ w = 0) :
    pySliceLast w l = l := by
  unfold pySliceLast
  rcases h with h | h
  · split
    · rfl
    · have : l.length - w = 0 := by omega
      rw [this, List.drop_zero]
  · rw [if_pos h]

theorem compress_stage1_subset (cm : ContextManager) (messages : List Message) :
    cm.compress_stage1 messages ⊆ messages := by
  unfold ContextManager.compress_stage1
  intro m hm
  simp only [List.mem_append] at hm
  rcases hm with hm | hm
  · rcases h : (messages.filter (fun m => m.role == "system")).getLast? with _ | s
    · rw [h] at hm
      simp at hm
    · rw [h] at hm
      simp only [List.mem_singleton] at hm
      subst hm
      exact List.filter_subset' _ (List.mem_of_mem_getLast? h)
  · exact List.filter_subset' _ (pySliceLast_subset _ _ hm)

/-- Shape of the output of the first compression stage: one optional leading
system message followed by non-system messages that fit inside the window. -/
theorem compress_stage1_shape (cm : ContextManager) (messages : List Message) :
    ∃ s0 rest, cm.compress_stage1 messages = s0 ++ rest ∧
      (s0 = [] ∨ ∃ s, s0 = [s] ∧ (s.role == "system") = true) ∧
      (∀ m ∈ rest, (m.role == "system") = false) ∧
      (rest.length ≤ cm.slidingWindowSize ∨ cm.slidingWindowSize = 0) := by
  have hrest : ∀ m ∈ pySliceLast cm.slidingWindowSize
      (messages.filter (fun m => m.role != "system")), (m.role == "system") = false := by
    intro m hm
    have h1 := pySliceLast_subset _ _ hm
    have h2 := (List.mem_filter.mp h1).2
    simp only [bne_iff_ne, ne_eq] at h2
    simp only [beq_eq_false_iff_ne, ne_eq]
    exact h2
  have hwlen : (pySliceLast cm.slidingWindowSize
      (messages.filter (fun m => m.role != "system"))).length ≤ cm.slidingWindowSize ∨
      cm.slidingWindowSize = 0 := by
    by_cases hw : cm.slidingWindowSize = 0
    · exact Or.inr hw
    · exact Or.inl (pySliceLast_length_le _ _ hw)
  rcases h : (messages.filter (fun m => m.role == "system")).getLast? with _ | s
  · refine ⟨[], _, ?_, Or.inl rfl, hrest, hwlen⟩
    unfold ContextManager.compress_stage1
    rw [h]
  · refine ⟨[s], _, ?_, Or.inr ⟨s, rfl, ?_⟩, hrest, hwlen⟩
    · unfold ContextManager.compress_stage1
      rw [h]
    · have := List.mem_of_mem_getLast? h
      exact (List.mem_filter.mp this).2

/-- The first compression stage fixes any list already of that shape. -/
theorem compress_stage1_fixed (cm : ContextManager) (s0 rest : List Message)
    (h0 : s0 = [] ∨ ∃ s, s0 = [s] ∧ (s.role == "system") = true)
    (hr : ∀ m ∈ rest, (m.role == "system") = false)
    (hlen : rest.length ≤ cm.slidingWindowSize ∨ cm.slidingWindowSize = 0) :
    cm.compress_stage1 (s0 ++ rest) = s0 ++ rest := by
  have hfil_sys : (s0 ++ rest).filter (fun m => m.role == "system") = s0 := by
    rw [List.filter_append]
    have h1 : s0.filter (fun m => m.role == "system") = s0 := by
      rcases h0 with h | ⟨s, rfl, hs⟩
      · rw [h]
        rfl
      · simp only [List.filter_cons, hs, List.filter_nil]
        rfl
    have h2 : rest.filter (fun m => m.role == "system") = [] := by
      rw [List.filter_eq_nil_iff]
      intro m hm
      rw [hr m hm]
      exact Bool.false_ne_true
    rw [h1, h2, List.append_nil]
  have hfil_oth : (s0 ++ rest).filter (fun m => m.role != "system") = rest := by
    rw [List.filter_append]
    have h1 : s0.filter (fun m => m.role != "system") = [] := by
      rcases h0 with h | ⟨s, rfl, hs⟩
      · rw [h]
        rfl
      · simp only [List.filter_cons, List.filter_nil, bne, hs]
        rfl
    have h2 : rest.filter (fun m => m.role != "system") = rest := by
      rw [List.filter_eq_self]
      intro m hm
      rw [bne]
      rw [hr m hm]
      rfl
    rw [h1, h2, List.nil_append]
  unfold ContextManager.compress_stage1
  rw [hfil_sys, hfil_oth, pySliceLast_of_short _ _ hlen]
  rcases h0 with h | ⟨s, rfl, _⟩
  · rw [h]
    rfl
  · rfl

theorem compress_stage1_idem (cm : ContextManager) (messages : List Message) :
    cm.compress_stage1 (cm.compress_stage1 messages) = cm.compress_stage1 messages := by
  obtain ⟨s0, rest, heq, h0, hr, hlen⟩ := compress_stage1_shape cm messages
  rw [heq]
  exact compress_stage1_fixed cm s0 rest h0 hr hlen

theorem compress_stage1_map_trunc (cm : ContextManager) (messages : List Message) :
    cm.compress_stage1 ((cm.compress_stage1 messages).map truncLong) =
      (cm.compress_stage1 messages).map truncLong := by
  obtain ⟨s0, rest, heq, h0, hr, hlen⟩ := compress_stage1_shape cm messages
  rw [heq, List.map_append]
  have h00 : s0.map truncLong = s0 := by
    rcases h0 with h | ⟨s, rfl, hs⟩
    · rw [h]
      rfl
    · simp only [List.map_cons, List.map_nil]
      rw [truncLong_of_system s (by simpa using hs)]
  rw [h00]
  apply compress_stage1_fixed cm s0 (rest.map truncLong) h0
  · intro m hm
    obtain ⟨m0, hm0, rfl⟩ := List.mem_map.mp hm
    rw [show (truncLong m0).role = m0.role from truncLong_role m0]
    exact hr m0 hm0
  · rw [List.length_map]
    exact hlen

theorem map_truncLong_idem (l : List Message) :
    (l.map truncLong).map truncLong = l.map truncLong := by
  rw [List.map_map]
  apply List.map_congr_left
  intro m _
  exact truncLong_idem m

theorem isPrefixOf_of_take_append {pat l r : List Char} {n : Nat}
    (hpn : pat.length ≤ n) (hnl : n ≤ l.length)
    (h : pat.isPrefixOf (l.take n ++ r) = true) : pat.isPrefixOf l = true := by
  rw [List.isPrefixOf_iff_prefix] at h ⊢
  rw [List.prefix_iff_eq_take] at h ⊢
  rw [List.take_append_eq_append_take] at h
  have hlen : (l.take n).length = n := by
    rw [List.length_take]
    omega
  have hz : pat.length - (l.take n).length = 0 := by omega
  rw [hz] at h
  simp only [List.take_zero, List.append_nil] at h
  rw [List.take_take] at h
  have hmin : min pat.length n = pat.length := by omega
  rw [hmin] at h
  exact h

/-- C5.  Compression never truncates a tool-result message: every message of
the compressed output whose content carries the `TOOL RESULT` prefix is an
element of the input list, content unchanged (the only rewriting compression
does — `truncLong` — skips tool results, so a tool result can leave the input
only by ageing out of the window, never with altered content). -/
theorem c5_tool_results_never_truncated (tc : String → Nat) (cm : ContextManager)
    (messages : List Message) (m : Message)
    (hm : m ∈ cm.compress_messages tc messages)
    (ht : pyStartswith m.content "TOOL RESULT" = true) :
    m ∈ messages := by
  unfold ContextManager.compress_messages at hm
  by_cases h1 : ContextManager.count_messages_tokens tc (cm.compress_stage1 messages) >
      cm.maxTokens
  · rw [if_pos h1] at hm
    obtain ⟨m0, hm0, heq⟩ := List.mem_map.mp hm
    by_cases hc : m0.role ≠ "system" ∧ pyStartswith m0.content "TOOL RESULT" = false
        ∧ pyLen m0.content > 5000
    · exfalso
      have htr : truncLong m0 =
          { m0 with content := String.mk ((m0.content.data.take 4500) ++ ("... [truncated]").data) } := by
        unfold truncLong
        rw [if_pos hc]
      rw [htr] at heq
      subst heq
      unfold pyStartswith at ht
      have hpre : ("TOOL RESULT").data.isPrefixOf m0.content.data = true := by
        apply isPrefixOf_of_take_append (n := 4500) (by decide) ?_ ht
        have := hc.2.2
        unfold pyLen at this
        omega
      have : pyStartswith m0.content "TOOL RESULT" = true := hpre
      rw [hc.2.1] at this
      exact Bool.noConfusion this
    · have htr : truncLong m0 = m0 := by
        unfold truncLong
        rw [if_neg hc]
      rw [htr] at heq
      subst heq
      exact compress_stage1_subset cm messages hm0
  · rw [if_neg h1] at hm
    exact compress_stage1_subset cm messages hm

/-- C6.  Compression is idempotent: a second `_compress_messages` pass leaves
the output of the first unchanged — the window re-slice fixes the already
sliced list and the threshold truncation leaves every already truncated
content (4515 characters) below the 5000-character threshold.  Determinism is
inherent: the embedding is a pure function of the buffer, the budget and the
token counter.  The over-budget hypothesis mirrors the claim; idempotence
holds for any input. -/
theorem c6_compression_idempotent (tc : String → Nat) (cm : ContextManager)
    (messages : List Message)
    (_hover : ContextManager.count_messages_tokens tc messages > cm.maxTokens) :
    cm.compress_messages tc (cm.compress_messages tc messages) =
      cm.compress_messages tc messages := by
  by_cases h1 : ContextManager.count_messages_tokens tc (cm.compress_stage1 messages) >
      cm.maxTokens
  · have hA : cm.compress_messages tc messages = (cm.compress_stage1 messages).map truncLong := by
      unfold ContextManager.compress_messages
      rw [if_pos h1]
    rw [hA]
    unfold ContextManager.compress_messages
    rw [compress_stage1_map_trunc]
    split
    · rw [map_truncLong_idem]
    · rfl
  · have hA : cm.compress_messages tc messages = cm.compress_stage1 messages := by
      unfold ContextManager.compress_messages
      rw [if_neg h1]
    rw [hA]
    unfold ContextManager.compress_messages
    rw [compress_stage1_idem, if_neg h1]

/-- Witness for C5 at a concrete input: with a zero token budget everything is
compressed, and a stored tool-result message passes through unchanged. -/
theorem c5_tool_results_never_truncated_witness :
    toolMsgW ∈ cmW.compress_messages tcLen4 [toolMsgW] ∧ toolMsgW ∈ [toolMsgW] :=
  ⟨by decide, c5_tool_results_never_truncated tcLen4 cmW [toolMsgW] toolMsgW (by decide) (by decide)⟩

/-- Witness for C6 at a concrete input: one over-budget buffer, compressed
twice. -/
theorem c6_compression_idempotent_witness :
    ContextManager.count_messages_tokens tcLen4 [toolMsgW] > cmW.maxTokens ∧
      cmW.compress_messages tcLen4 (cmW.compress_messages tcLen4 [toolMsgW]) =
        cmW.compress_messages tcLen4 [toolMsgW] :=
  ⟨by decide, c6_compression_idempotent tcLen4 cmW [toolMsgW] (by decide)⟩

/-! ## Evaluation lemmas for the oversized concrete buffer (C9) -/

theorem bigA_len : pyLen bigA = 5001 := by
  show (List.replicate 5001 'a').length = 5001
  rw [List.length_replicate]

theorem marker_len : ("... [truncated]").data.length = 15 := by decide

theorem truncA_len : pyLen truncA = 4515 := by
  show (bigA.data.take 4500 ++ ("... [truncated]").data).length = 4515
  rw [List.length_append, List.length_take, marker_len,
    show bigA.data.length = 5001 from bigA_len]
  decide

theorem truncA_ne_bigA : truncA ≠ bigA := by
  intro h
  have h2 := congrArg pyLen h
  rw [truncA_len, bigA_len] at h2
  exact absurd h2 (by decide)

theorem truncLong_bigMsg : truncLong ⟨"user", bigA⟩ = ⟨"user", truncA⟩ := by
  unfold truncLong
  rw [if_pos]
  · rfl
  · refine ⟨by decide, by decide, ?_⟩
    show pyLen bigA > 5000
    rw [bigA_len]
    decide

theorem count_bigMsg :
    ContextManager.count_messages_tokens tcLen4 [⟨"user", bigA⟩] = 1250 := by
  unfold ContextManager.count_messages_tokens tcLen4
  rw [List.foldl_cons, List.foldl_nil, Nat.zero_add]
  rw [show (⟨"user", bigA⟩ : Message).content = bigA from rfl, bigA_len]

theorem count_truncMsg :
    ContextManager.count_messages_tokens tcLen4 [⟨"user", truncA⟩] = 1128 := by
  unfold ContextManager.count_messages_tokens tcLen4
  rw [List.foldl_cons, List.foldl_nil, Nat.zero_add]
  rw [show (⟨"user", truncA⟩ : Message).content = truncA from rfl, truncA_len]

theorem stage1_cm9 : cm9.compress_stage1 [⟨"user", bigA⟩] = [⟨"user", bigA⟩] := by
  apply compress_stage1_fixed cm9 [] [⟨"user", bigA⟩] (Or.inl rfl)
  · intro m hm
    rw [List.mem_singleton] at hm
    subst hm
    decide
  · exact Or.inl (by decide)

theorem compress_cm9 :
    cm9.compress_messages tcLen4 [⟨"user", bigA⟩] = [⟨"user", truncA⟩] := by
  unfold ContextManager.compress_messages
  rw [stage1_cm9, count_bigMsg, if_pos (by decide : 1250 > cm9.maxTokens)]
  rw [List.map_singleton, truncLong_bigMsg]

theorem mutate_cm9 : mutateHistory 1 [⟨"user", bigA⟩] = [⟨"user", truncA⟩] := by
  show (if (0 : Nat) ≤ 0 then truncLong ⟨"user", bigA⟩ else ⟨"user", bigA⟩) :: [] =
    [⟨"user", truncA⟩]
  rw [if_pos (le_refl 0), truncLong_bigMsg]

theorem get_messages_hist_cm9 :
    cm9.get_messages_hist tcLen4 true = [⟨"user", truncA⟩] := by
  unfold ContextManager.get_messages_hist
  rw [show cm9.messagesBase true = [⟨"user", bigA⟩] from rfl]
  rw [stage1_cm9, count_bigMsg, if_pos (by decide : 1250 > cm9.maxTokens)]
  rw [show cm9.messageHistory = [⟨"user", bigA⟩] from rfl,
    show cm9.slidingWindowSize = 1 from rfl, mutate_cm9]

theorem get_messages_cm9 :
    cm9.get_messages tcLen4 true = ([⟨"user", truncA⟩], cm9T) := by
  unfold ContextManager.get_messages
  rw [show cm9.messagesBase true = [⟨"user", bigA⟩] from rfl]
  rw [count_bigMsg, if_pos (by decide : 1250 > cm9.maxTokens)]
  rw [compress_cm9, get_messages_hist_cm9]
  rfl

theorem stage1_cm9T :
    cm9T.compress_stage1 [⟨"user", truncA⟩] = [⟨"user", truncA⟩] := by
  apply compress_stage1_fixed cm9T [] [⟨"user", truncA⟩] (Or.inl rfl)
  · intro m hm
    rw [List.mem_singleton] at hm
    subst hm
    decide
  · exact Or.inl (by decide)

theorem compress_cm9T :
    cm9T.compress_messages tcLen4 [⟨"user", truncA⟩] = [⟨"user", truncA⟩] := by
  unfold ContextManager.compress_messages
  rw [stage1_cm9T, count_truncMsg, if_pos (by decide : 1128 > cm9T.maxTokens)]
  rw [List.map_singleton]
  rw [truncLong_content_short ⟨"user", truncA⟩ ?_]
  show pyLen truncA ≤ 5000
  rw [truncA_len]
  decide

/-- C9.  `get_messages` is not side-effect-free: at a concrete over-budget
buffer (one 5001-character user message, window 1, budget 10) the call rewrites
the stored history in place — afterwards the deque holds the truncated content,
and a later `get_messages` call on the resulting state sees only the truncated
message. -/
theorem c9_get_messages_mutates_history :
    (cm9.get_messages tcLen4 true).2.messageHistory ≠ cm9.messageHistory ∧
    (cm9.get_messages tcLen4 true).2.messageHistory = [⟨"user", truncA⟩] ∧
    (((cm9.get_messages tcLen4 true).2).get_messages tcLen4 true).1 =
      [⟨"user", truncA⟩] := by
  refine ⟨?_, ?_, ?_⟩
  · rw [get_messages_cm9]
    intro h
    have h2 : ([⟨"user", truncA⟩] : List Message) = [⟨"user", bigA⟩] := h
    injection h2 with h3 _
    injection h3 with _ h4
    exact truncA_ne_bigA h4
  · rw [get_messages_cm9]
    rfl
  · rw [get_messages_cm9]
    show (cm9T.get_messages tcLen4 true).1 = [⟨"user", truncA⟩]
    unfold ContextManager.get_messages
    rw [show cm9T.messagesBase true = [⟨"user", truncA⟩] from rfl]
    rw [count_truncMsg, if_pos (by decide : 1128 > cm9T.maxTokens)]
    rw [compress_cm9T]

/-! ## Frame lemmas for dispatch and the loop -/

theorem runBrowser_state (browser : BrowserOracle) (st : OrchState) (name : String)
    (args : Args) (keys : List String) :
    (runBrowser browser st name args keys).2.1 = st := by
  unfold runBrowser
  split
  · rfl
  · split <;> rfl

theorem call_tool_state (browser : BrowserOracle) (st : OrchState) (name : String)
    (args : Args) :
    (call_tool browser st name args).2.1 = st ∨
    (call_tool browser st name args).2.1 =
      { st with task_completed := true,
                task_result := some (task_complete_result args st.current_step) } := by
  unfold call_tool
  by_cases h1 : (name == "click") = true
  · rw [if_pos h1]
    exact Or.inl (runBrowser_state browser st name args _)
  rw [if_neg h1]
  by_cases h2 : (name == "type_text") = true
  · rw [if_pos h2]
    exact Or.inl (runBrowser_state browser st name args _)
  rw [if_neg h2]
  by_cases h3 : (name == "navigate") = true
  · rw [if_pos h3]
    exact Or.inl (runBrowser_state browser st name args _)
  rw [if_neg h3]
  by_cases h4 : (name == "scroll") = true
  · rw [if_pos h4]
    exact Or.inl (runBrowser_state browser st name args _)
  rw [if_neg h4]
  by_cases h5 : (name == "go_back") = true
  · rw [if_pos h5]
    exact Or.inl (runBrowser_state browser st name args _)
  rw [if_neg h5]
  by_cases h6 : (name == "extract_text") = true
  · rw [if_pos h6]
    exact Or.inl (runBrowser_state browser st name args _)
  rw [if_neg h6]
  by_cases h7 : (name == "wait") = true
  · rw [if_pos h7]
    exact Or.inl (runBrowser_state browser st name args _)
  rw [if_neg h7]
  by_cases h8 : (name == "press_key") = true
  · rw [if_pos h8]
    exact Or.inl (runBrowser_state browser st name args _)
  rw [if_neg h8]
  by_cases h9 : (name == "task_complete") = true
  · rw [if_pos h9]
    exact Or.inr rfl
  rw [if_neg h9]
  by_cases h10 : (name == "ask_user") = true
  · rw [if_pos h10]
    exact Or.inl rfl
  rw [if_neg h10]
  exact Or.inl rfl

theorem call_tool_frame (browser : BrowserOracle) (st : OrchState) (name : String)
    (args : Args) :
    (call_tool browser st name args).2.1.current_step = st.current_step ∧
    (call_tool browser st name args).2.1.ctx = st.ctx ∧
    ((call_tool browser st name args).2.1.task_result = st.task_result ∧
       (call_tool browser st name args).2.1.task_completed = st.task_completed ∨
     ∃ b r, (call_tool browser st name args).2.1.task_result =
       some ⟨b, r, st.current_step, none⟩) := by
  rcases call_tool_state browser st name args with h | h <;> rw [h]
  · exact ⟨rfl, rfl, Or.inl ⟨rfl, rfl⟩⟩
  · exact ⟨rfl, rfl, Or.inr ⟨args.getBool "success" true, args.getStr "result" "", rfl⟩⟩

theorem execute_tool_call_frame (sec : SecState) (browser : BrowserOracle)
    (st : OrchState) (tool_call : ToolCall) :
    (execute_tool_call sec browser st tool_call).1.current_step = st.current_step ∧
    ((execute_tool_call sec browser st tool_call).1.task_result = st.task_result ∧
       (execute_tool_call sec browser st tool_call).1.task_completed = st.task_completed ∨
     ∃ b r, (execute_tool_call sec browser st tool_call).1.task_result =
       some ⟨b, r, st.current_step, none⟩) := by
  have hct := call_tool_frame browser st tool_call.name tool_call.args
  unfold execute_tool_call record_tool_result
  split
  · split
    · exact ⟨rfl, Or.inl ⟨rfl, rfl⟩⟩
    · refine ⟨hct.1, ?_⟩
      rcases hct.2.2 with ⟨h1, h2⟩ | ⟨b, r, h⟩
      · exact Or.inl ⟨h1, h2⟩
      · exact Or.inr ⟨b, r, h⟩
  · refine ⟨hct.1, ?_⟩
    rcases hct.2.2 with ⟨h1, h2⟩ | ⟨b, r, h⟩
    · exact Or.inl ⟨h1, h2⟩
    · exact Or.inr ⟨b, r, h⟩

theorem add_content_state (st : OrchState) (c : Option String) :
    add_content st c = st ∨
    ∃ s, add_content st c = { st with ctx := st.ctx.add_assistant_message s } := by
  rcases c with _ | c
  · exact Or.inl rfl
  · by_cases hc : c ≠ ""
    · refine Or.inr ⟨c, ?_⟩
      show (if c ≠ "" then { st with ctx := st.ctx.add_assistant_message c } else st) = _
      rw [if_pos hc]
    · refine Or.inl ?_
      show (if c ≠ "" then { st with ctx := st.ctx.add_assistant_message c } else st) = st
      rw [if_neg hc]

theorem add_content_frame (st : OrchState) (c : Option String) :
    (add_content st c).current_step = st.current_step ∧
    (add_content st c).task_result = st.task_result ∧
    (add_content st c).task_completed = st.task_completed := by
  rcases add_content_state st c with h | ⟨s, h⟩ <;> rw [h] <;> exact ⟨rfl, rfl, rfl⟩

theorem exec_tool_calls_inv (sec : SecState) (browser : BrowserOracle)
    (calls : List ToolCall) :
    ∀ (st : OrchState) (acc : List (String × Args)),
      (exec_tool_calls sec browser st acc calls).1.current_step = st.current_step ∧
      ((exec_tool_calls sec browser st acc calls).1.task_result = st.task_result ∧
         (exec_tool_calls sec browser st acc calls).1.task_completed = st.task_completed ∨
       ∃ b r, (exec_tool_calls sec browser st acc calls).1.task_result =
         some ⟨b, r, st.current_step, none⟩) := by
  induction calls with
  | nil =>
      intro st acc
      exact ⟨rfl, Or.inl ⟨rfl, rfl⟩⟩
  | cons c cs ih =>
      intro st acc
      have he := execute_tool_call_frame sec browser st c
      have hi := ih (execute_tool_call sec browser st c).1
        (acc ++ (execute_tool_call sec browser st c).2)
      unfold exec_tool_calls
      refine ⟨?_, ?_⟩
      · rw [hi.1, he.1]
      · rcases hi.2 with ⟨h1, h2⟩ | ⟨b, r, h⟩
        · rcases he.2 with ⟨h3, h4⟩ | ⟨b, r, h⟩
          · exact Or.inl ⟨h1.trans h3, h2.trans h4⟩
          · exact Or.inr ⟨b, r, h1.trans h⟩
        · rw [he.1] at h
          exact Or.inr ⟨b, r, h⟩

theorem process_llm_response_frame (sec : SecState) (browser : BrowserOracle)
    (st : OrchState) (response : LLMResponse) :
    (process_llm_response sec browser st response).1.current_step = st.current_step ∧
    ((process_llm_response sec browser st response).1.task_result = st.task_result ∧
       (process_llm_response sec browser st response).1.task_completed = st.task_completed ∨
     ∃ b r, (process_llm_response sec browser st response).1.task_result =
       some ⟨b, r, st.current_step, none⟩) := by
  have ha := add_content_frame st response.content
  have he := exec_tool_calls_inv sec browser response.tool_calls
    (add_content st response.content) []
  unfold process_llm_response
  refine ⟨he.1.trans ha.1, ?_⟩
  rcases he.2 with ⟨h1, h2⟩ | ⟨b, r, h⟩
  · exact Or.inl ⟨h1.trans ha.2.1, h2.trans ha.2.2⟩
  · rw [ha.1] at h
    exact Or.inr ⟨b, r, h⟩

theorem planning_state_frame (env : OrchEnv) (task : String) (st : OrchState)
    (page : PageInfo) :
    (planning_state env task st page).current_step = st.current_step + 1 ∧
    (planning_state env task st page).task_result = st.task_result ∧
    (planning_state env task st page).task_completed = st.task_completed :=
  ⟨rfl, rfl, rfl⟩

theorem iter_stepOf (env : OrchEnv) (task : String) (st : OrchState) (ev : StepEvent) :
    (execute_task_iter env task st ev).stepOf = st.current_step + 1 := by
  rcases ev with ⟨page, response⟩ | ⟨e, rec⟩
  · show (process_llm_response env.sec env.browser (planning_state env task st page)
      response).1.current_step = st.current_step + 1
    rw [(process_llm_response_frame env.sec env.browser (planning_state env task st page)
      response).1]
    rfl
  · rcases rec <;> rfl

theorem iter_ok_cont (env : OrchEnv) (task : String) (st : OrchState)
    (page : PageInfo) (response : LLMResponse) :
    (execute_task_iter env task st (.ok page response)).isCont = true := rfl

theorem iter_cont_shape (env : OrchEnv) (task : String) (st : OrchState)
    (ev : StepEvent) (st2 : OrchState)
    (h : execute_task_iter env task st ev = .cont st2) :
    st2.current_step = st.current_step + 1 ∧
    (st2.task_result = st.task_result ∧ st2.task_completed = st.task_completed ∨
     ∃ b r, st2.task_result = some ⟨b, r, st.current_step + 1, none⟩) := by
  rcases ev with ⟨page, response⟩ | ⟨e, rec⟩
  · have h2 : (process_llm_response env.sec env.browser (planning_state env task st page)
        response).1 = st2 := by
      injection h
    have hf := process_llm_response_frame env.sec env.browser
      (planning_state env task st page) response
    rw [h2] at hf
    refine ⟨hf.1, ?_⟩
    rcases hf.2 with ⟨h3, h4⟩ | ⟨b, r, h3⟩
    · exact Or.inl ⟨h3, h4⟩
    · exact Or.inr ⟨b, r, h3⟩
  · rcases rec
    · exact IterOut.noConfusion h
    · have h2 : recovery_state env e st = st2 := by injection h
      subst h2
      exact ⟨rfl, Or.inl ⟨rfl, rfl⟩⟩


theorem iter_halt_shape (env : OrchEnv) (task : String) (st : OrchState)
    (ev : StepEvent) (r : TaskResult) (st2 : OrchState)
    (h : execute_task_iter env task st ev = .halt r st2) :
    r.success = false ∧ r.error.isSome = true ∧ r.steps_taken = st.current_step + 1 ∧
    st2.task_completed = st.task_completed ∧ st2.task_result = st.task_result := by
  rcases ev with ⟨page, response⟩ | ⟨e, rec⟩
  · exact IterOut.noConfusion h
  · rcases rec
    · have h1 : (⟨false, "", st.current_step + 1, some e⟩ : TaskResult) = r := by
        injection h
      have h2 : ({ st with current_step := st.current_step + 1 } : OrchState) = st2 := by
        injection h
      subst h1
      subst h2
      exact ⟨rfl, rfl, rfl, rfl, rfl⟩
    · exact IterOut.noConfusion h

theorem finalize_of_completed (B : Nat) (st : OrchState) (r : TaskResult)
    (hc : st.task_completed = true) (hr : st.task_result = some r) :
    execute_task_finalize B st = r := by
  unfold execute_task_finalize
  rw [hr, hc]

theorem finalize_overrun (B : Nat) (st : OrchState) :
    (execute_task_overrun B st).success = false ∧
    (execute_task_overrun B st).error.isSome = true ∧
    (execute_task_overrun B st).steps_taken = st.current_step := by
  unfold execute_task_overrun
  split
  · exact ⟨rfl, rfl, rfl⟩
  · exact ⟨rfl, rfl, rfl⟩

theorem finalize_failure (B : Nat) (st : OrchState)
    (h : st.task_completed = false ∨ st.task_result = none) :
    (execute_task_finalize B st).success = false ∧
    (execute_task_finalize B st).error.isSome = true ∧
    (execute_task_finalize B st).steps_taken = st.current_step := by
  unfold execute_task_finalize
  rcases hr : st.task_result with _ | r <;> rcases hc : st.task_completed
  · exact finalize_overrun B st
  · exact finalize_overrun B st
  · exact finalize_overrun B st
  · rcases h with h | h
    · rw [h] at hc
      exact Bool.noConfusion hc
    · rw [h] at hr
      exact Option.noConfusion hr

theorem loop_steps_le (env : OrchEnv) (events : Nat → StepEvent) (task : String) :
    ∀ (fuel : Nat) (st : OrchState),
      st.current_step + fuel ≤ env.max_steps →
      (∀ tr, st.task_result = some tr → tr.steps_taken ≤ env.max_steps) →
      (execute_task_loop env events task fuel st).1.steps_taken ≤ env.max_steps := by
  intro fuel
  induction fuel with
  | zero =>
      intro st h1 h2
      show (execute_task_finalize env.max_steps st).steps_taken ≤ env.max_steps
      rcases hc : st.task_completed
      · rw [(finalize_failure env.max_steps st (Or.inl hc)).2.2]
        omega
      · rcases hr : st.task_result with _ | r
        · rw [(finalize_failure env.max_steps st (Or.inr hr)).2.2]
          omega
        · rw [finalize_of_completed env.max_steps st r hc hr]
          exact h2 r hr
  | succ fuel ih =>
      intro st h1 h2
      unfold execute_task_loop
      by_cases hc : st.task_completed = true
      · rw [if_pos hc]
        show (execute_task_finalize env.max_steps st).steps_taken ≤ env.max_steps
        rcases hr : st.task_result with _ | r
        · rw [(finalize_failure env.max_steps st (Or.inr hr)).2.2]
          omega
        · rw [finalize_of_completed env.max_steps st r hc hr]
          exact h2 r hr
      · rw [if_neg hc]
        cases hit : execute_task_iter env task st (events st.current_step) with
        | cont st2 =>
            have hs := iter_cont_shape env task st _ st2 hit
            show (execute_task_loop env events task fuel st2).1.steps_taken ≤ env.max_steps
            apply ih st2
            · omega
            · intro tr htr
              rcases hs.2 with ⟨h3, _⟩ | ⟨b, r2, h3⟩
              · exact h2 tr (h3 ▸ htr)
              · rw [h3] at htr
                injection htr with htr
                rw [← htr]
                show st.current_step + 1 ≤ env.max_steps
                omega
        | halt r st2 =>
            have hs := iter_halt_shape env task st _ r st2 hit
            show r.steps_taken ≤ env.max_steps
            rw [hs.2.2.1]
            omega

theorem loop_failure (env : OrchEnv) (events : Nat → StepEvent) (task : String) :
    ∀ (fuel : Nat) (st : OrchState),
      ((execute_task_loop env events task fuel st).2.task_completed = false ∨
       (execute_task_loop env events task fuel st).2.task_result = none) →
      (execute_task_loop env events task fuel st).1.success = false ∧
      (execute_task_loop env events task fuel st).1.error.isSome = true := by
  intro fuel
  induction fuel with
  | zero =>
      intro st h
      have hf := finalize_failure env.max_steps st h
      exact ⟨hf.1, hf.2.1⟩
  | succ fuel ih =>
      intro st h
      unfold execute_task_loop at h ⊢
      by_cases hc : st.task_completed = true
      · rw [if_pos hc] at h ⊢
        have hf := finalize_failure env.max_steps st (by
          rcases h with h | h
          · exact Or.inl h
          · exact Or.inr h)
        exact ⟨hf.1, hf.2.1⟩
      · rw [if_neg hc] at h ⊢
        cases hit : execute_task_iter env task st (events st.current_step) with
        | cont st2 =>
            rw [hit] at h
            exact ih st2 h
        | halt r st2 =>
            have hs := iter_halt_shape env task st _ r st2 hit
            exact ⟨hs.1, hs.2.1⟩

/-! ## Claim theorems for the orchestrator loop -/

/-- C1.  For every task execution — any collaborator behaviour `events`, any
starting state and any task text — the returned `TaskResult` reports
`steps_taken ≤ max_steps` (the lower bound `0 ≤ steps_taken` is inherent in
the `Nat` counter): the loop increments the counter exactly while
`current_step < max_steps`, and every stored intermediate result carries the
then-current counter. -/
theorem c1_steps_taken_within_budget (env : OrchEnv) (events : Nat → StepEvent)
    (st : OrchState) (task : String) :
    (execute_task env events st task).1.steps_taken ≤ env.max_steps := by
  unfold execute_task
  apply loop_steps_le
  · show 0 + env.max_steps ≤ env.max_steps
    omega
  · intro tr htr
    have h0 : (execute_task_init env.tmpl st task).task_result = none := rfl
    rw [h0] at htr
    exact Option.noConfusion htr

/-- C2.  `execute_task` is a total function of the collaborators' behaviour —
no exception propagates to the caller, including a failure of the recovery
path — and on every run that does not terminate through the completion action
(final state not completed-with-result) the returned `TaskResult` has
`success = false` and a populated (`Optional[str]` is not `None`) `error`
field. -/
theorem c2_failures_become_task_results (env : OrchEnv) (events : Nat → StepEvent)
    (st : OrchState) (task : String)
    (h : (execute_task env events st task).2.task_completed = false ∨
         (execute_task env events st task).2.task_result = none) :
    (execute_task env events st task).1.success = false ∧
    (execute_task env events st task).1.error.isSome = true := by
  unfold execute_task at h ⊢
  exact loop_failure env events task env.max_steps _ h

/-- Witness for C2: every step raises and recovery fails, so the run returns a
failed `TaskResult` after the first step. -/
theorem c2_failures_become_task_results_witness :
    ((execute_task envW eventsFailW stInitW "задача").2.task_completed = false ∨
     (execute_task envW eventsFailW stInitW "задача").2.task_result = none) ∧
    (execute_task envW eventsFailW stInitW "задача").1.success = false ∧
    (execute_task envW eventsFailW stInitW "задача").1.error.isSome = true := by
  have hh : (execute_task envW eventsFailW stInitW "задача").2.task_completed = false ∨
      (execute_task envW eventsFailW stInitW "задача").2.task_result = none :=
    Or.inl (by decide)
  exact ⟨hh, c2_failures_become_task_results envW eventsFailW stInitW "задача" hh⟩

/-- C8.  Every iteration of the main loop increments the step counter exactly
once, whatever the decision-maker returned (including an error step); a
successful decision step always continues the loop; and a step with zero
action requests is consumed as a no-op — the completion flag and the stored
result are untouched. -/
theorem c8_each_iteration_one_step (env : OrchEnv) (task : String) (st : OrchState) :
    (∀ ev, (execute_task_iter env task st ev).stepOf = st.current_step + 1) ∧
    (∀ page response, (execute_task_iter env task st (.ok page response)).isCont = true) ∧
    (∀ page response, response.tool_calls = [] →
      (execute_task_iter env task st (.ok page response)).completedOf = st.task_completed ∧
      (execute_task_iter env task st (.ok page response)).resultOf = st.task_result) := by
  refine ⟨iter_stepOf env task st, fun page response => iter_ok_cont env task st page response, ?_⟩
  intro page response htc
  have hp : process_llm_response env.sec env.browser (planning_state env task st page) response
      = (add_content (planning_state env task st page) response.content, []) := by
    unfold process_llm_response
    rw [htc]
    rfl
  constructor
  · show (process_llm_response env.sec env.browser (planning_state env task st page)
      response).1.task_completed = st.task_completed
    rw [hp, (add_content_frame _ _).2.2]
    rfl
  · show (process_llm_response env.sec env.browser (planning_state env task st page)
      response).1.task_result = st.task_result
    rw [hp, (add_content_frame _ _).2.1]
    rfl

/-- Witness for C8: a concrete iteration with a zero-action response consumes
exactly one step and changes neither the completion flag nor the stored
result. -/
theorem c8_each_iteration_one_step_witness :
    (⟨none, []⟩ : LLMResponse).tool_calls = [] ∧
    (execute_task_iter envW "t" stInitW (.ok ⟨"u", "t", []⟩ ⟨none, []⟩)).stepOf = 1 ∧
    (execute_task_iter envW "t" stInitW (.ok ⟨"u", "t", []⟩ ⟨none, []⟩)).isCont = true ∧
    (execute_task_iter envW "t" stInitW (.ok ⟨"u", "t", []⟩ ⟨none, []⟩)).completedOf = false ∧
    (execute_task_iter envW "t" stInitW (.ok ⟨"u", "t", []⟩ ⟨none, []⟩)).resultOf = none := by
  have h := c8_each_iteration_one_step envW "t" stInitW
  have h3 := h.2.2 ⟨"u", "t", []⟩ ⟨none, []⟩ rfl
  exact ⟨rfl, h.1 _, h.2.1 _ _, h3.1, h3.2⟩

/-! ## Security gate and dispatch claims -/

/-- C4.  When the gate is enabled, no confirmation handler is registered and
the request matches a destructive pattern, `check_action` returns
`safe = false` with `requires_confirmation = true`; `_execute_tool_call` then
records the failure dict carrying `requires_user_confirmation` into the buffer
and executes no browser action (empty trace), leaving the rest of the state
untouched — the loop goes on. -/
theorem c4_destructive_blocked_without_handler (sec : SecState) (browser : BrowserOracle)
    (st : OrchState) (name : String) (args : Args)
    (hen : sec.enabled = true) (hcb : sec.user_confirmation_callback = none)
    (hd : (is_destructive_action sec.destructive_patterns name args).1 = true) :
    check_action sec name args =
      ⟨false, (is_destructive_action sec.destructive_patterns name args).2, true⟩ ∧
    execute_tool_call sec browser st ⟨name, args⟩ =
      (add_blocked st name (is_destructive_action sec.destructive_patterns name args).2, []) ∧
    (confirmation_required_result
      (is_destructive_action sec.destructive_patterns name args).2).get?
        "requires_user_confirmation" = some (JVal.bool true) ∧
    (confirmation_required_result
      (is_destructive_action sec.destructive_patterns name args).2).get? "success" =
      some (JVal.bool false) := by
  have hchk : check_action sec name args =
      ⟨false, (is_destructive_action sec.destructive_patterns name args).2, true⟩ := by
    unfold check_action
    rw [if_neg (by rw [hen]; exact fun hh => Bool.noConfusion hh)]
    rw [if_pos hd, hcb]
  refine ⟨hchk, ?_, rfl, rfl⟩
  unfold execute_tool_call
  rw [if_pos hen, hchk]
  rw [if_pos (show (⟨false, (is_destructive_action sec.destructive_patterns name args).2,
    true⟩ : SecurityVerdict).safe = false from rfl)]
  rfl

/-- Witness for C4: a `click` on a selector containing the configured pattern
`"delete"`, with no handler registered. -/
theorem c4_destructive_blocked_without_handler_witness :
    (is_destructive_action secDelW.destructive_patterns "click" argsDeleteClick).1 = true ∧
    (check_action secDelW "click" argsDeleteClick).safe = false ∧
    (check_action secDelW "click" argsDeleteClick).requires_confirmation = true ∧
    (execute_tool_call secDelW browserOkW stInitW ⟨"click", argsDeleteClick⟩).2 = [] := by
  have hd : (is_destructive_action secDelW.destructive_patterns "click" argsDeleteClick).1 =
      true := by decide
  have h := c4_destructive_blocked_without_handler secDelW browserOkW stInitW "click"
    argsDeleteClick rfl rfl hd
  refine ⟨hd, ?_, ?_, ?_⟩
  · rw [h.1]
  · rw [h.1]
  · rw [h.2.1]

/-- Helper for C7: the destructive check flags nothing outside `click` and
`type_text`. -/
theorem is_destructive_other (patterns : List String) (name : String) (args : Args)
    (h1 : (name == "click") = false) (h2 : (name == "type_text") = false) :
    is_destructive_action patterns name args = (false, "") := by
  simp [is_destructive_action, h1, h2]

/-- Helper for C7: an action the destructive check does not flag passes the
gate (whether enabled or not). -/
theorem check_action_not_flagged (sec : SecState) (name : String) (args : Args)
    (h : (is_destructive_action sec.destructive_patterns name args).1 = false) :
    (check_action sec name args).safe = true := by
  unfold check_action
  by_cases he : sec.enabled = false
  · rw [if_pos he]
  · rw [if_neg he]
    rw [if_neg (by rw [h]; exact fun hh => Bool.noConfusion hh)]

/-- Helper for C7: dispatching with one of the directly subscripted keys
absent raises `KeyError` before the browser call, which `_call_tool` converts
into a failure dict; nothing is executed and the state is unchanged. -/
theorem runBrowser_missing (browser : BrowserOracle) (st : OrchState) (name : String)
    (args : Args) (keys : List String) (k : String)
    (hk : k ∈ keys) (hm : (args.get? k).isNone = true) :
    ∃ e, runBrowser browser st name args keys =
      ([("success", JVal.bool false), ("error", JVal.str e)], st, []) := by
  unfold runBrowser
  rcases hf : keys.find? (fun k2 => (args.get? k2).isNone) with _ | k2
  · exact absurd hm (List.find?_eq_none.mp hf k hk)
  · exact ⟨"\x27" ++ k2 ++ "\x27", rfl⟩

/-- C7, counterexample to the claim as stated: `reason` is a `required`
argument of `click` in the declared schema, yet a `click` request omitting it
is dispatched and executed (the code reads `reason` through
`args.get("reason", "")`): with a browser reporting success the dispatch
returns `success = true` — not a `success = false` validation failure — and
the trace shows the action was executed. -/
theorem c7_counterexample_required_reason_defaulted :
    "reason" ∈ toolRequired "click" ∧
    argsClickNoReason.get? "reason" = none ∧
    (call_tool browserOkW stInitW "click" argsClickNoReason).1.get? "success" =
      some (JVal.bool true) ∧
    (call_tool browserOkW stInitW "click" argsClickNoReason).2.2 =
      [("click", argsClickNoReason)] := by
  refine ⟨by decide, rfl, by decide, by decide⟩

/-- C7, amended: an action name outside the declared surface yields a
`success = false` dict with a descriptive error, recorded into the buffer as a
tool-result message with the state otherwise untouched (the loop continues);
and a known action missing one of the arguments the dispatcher subscripts
directly (`selector`, `text`, `url`, `direction`, `seconds`, `key`) yields a
`success = false` dict with an error and no executed action.  Schema-required
arguments read through `args.get(...)` — `reason`, `amount`, `result`,
`success`, `question` — are silently defaulted instead (the counterexample
above). -/
theorem c7_amended_unknown_or_missing_indexed (sec : SecState) (browser : BrowserOracle)
    (st : OrchState) (name : String) (args : Args) :
    (name ∉ BROWSER_TOOLS.map (fun t => t.name) →
      execute_tool_call sec browser st ⟨name, args⟩ =
        ({ st with ctx := st.ctx.add_tool_result name (jsonDumps (unknown_tool_result name)) },
         [])) ∧
    (∀ k, k ∈ dispatchIndexedKeys name → args.get? k = none →
      ∃ e, call_tool browser st name args =
        ([("success", JVal.bool false), ("error", JVal.str e)], st, [])) := by
  constructor
  · intro hmem
    simp only [BROWSER_TOOLS, List.map_cons, List.map_nil, List.mem_cons,
      List.not_mem_nil, or_false, not_or] at hmem
    obtain ⟨n1, n2, n3, n4, n5, n6, n7, n8, n9, n10⟩ := hmem
    have hct : call_tool browser st name args = (unknown_tool_result name, st, []) := by
      unfold call_tool
      rw [if_neg (fun hh => n1 (beq_iff_eq.mp hh)), if_neg (fun hh => n2 (beq_iff_eq.mp hh)),
        if_neg (fun hh => n3 (beq_iff_eq.mp hh)), if_neg (fun hh => n4 (beq_iff_eq.mp hh)),
        if_neg (fun hh => n5 (beq_iff_eq.mp hh)), if_neg (fun hh => n6 (beq_iff_eq.mp hh)),
        if_neg (fun hh => n7 (beq_iff_eq.mp hh)), if_neg (fun hh => n8 (beq_iff_eq.mp hh)),
        if_neg (fun hh => n9 (beq_iff_eq.mp hh)), if_neg (fun hh => n10 (beq_iff_eq.mp hh))]
      rfl
    have hsafe : (check_action sec name args).safe = true :=
      check_action_not_flagged sec name args
        (by rw [is_destructive_other sec.destructive_patterns name args
          (beq_eq_false_iff_ne.mpr n1) (beq_eq_false_iff_ne.mpr n2)])
    unfold execute_tool_call
    by_cases hsec : sec.enabled = true
    · rw [if_pos hsec]
      rw [if_neg (by rw [hsafe]; exact fun hh => Bool.noConfusion hh)]
      rw [hct]
      rfl
    · rw [if_neg hsec, hct]
      rfl
  · intro k hk hmiss
    have hm2 : (args.get? k).isNone = true := by
      rw [hmiss]
      rfl
    by_cases h1 : name = "click"
    · subst h1
      exact runBrowser_missing browser st "click" args ["selector"] k hk hm2
    by_cases h2 : name = "type_text"
    · subst h2
      exact runBrowser_missing browser st "type_text" args ["selector", "text"] k hk hm2
    by_cases h3 : name = "navigate"
    · subst h3
      exact runBrowser_missing browser st "navigate" args ["url"] k hk hm2
    by_cases h4 : name = "scroll"
    · subst h4
      exact runBrowser_missing browser st "scroll" args ["direction"] k hk hm2
    by_cases h5 : name = "extract_text"
    · subst h5
      exact runBrowser_missing browser st "extract_text" args ["selector"] k hk hm2
    by_cases h6 : name = "wait"
    · subst h6
      exact runBrowser_missing browser st "wait" args ["seconds"] k hk hm2
    by_cases h7 : name = "press_key"
    · subst h7
      exact runBrowser_missing browser st "press_key" args ["key"] k hk hm2
    exfalso
    have hz : dispatchIndexedKeys name = [] := by
      unfold dispatchIndexedKeys
      rw [if_neg (fun hh => h1 (beq_iff_eq.mp hh)), if_neg (fun hh => h2 (beq_iff_eq.mp hh)),
        if_neg (fun hh => h3 (beq_iff_eq.mp hh)), if_neg (fun hh => h4 (beq_iff_eq.mp hh)),
        if_neg (fun hh => h5 (beq_iff_eq.mp hh)), if_neg (fun hh => h6 (beq_iff_eq.mp hh)),
        if_neg (fun hh => h7 (beq_iff_eq.mp hh))]
    rw [hz] at hk
    exact List.not_mem_nil k hk

/-- Witness for C7 (amended): an unknown action and a `wait` with no
`seconds`. -/
theorem c7_amended_unknown_or_missing_indexed_witness :
    ("frobnicate" ∉ BROWSER_TOOLS.map (fun t => t.name)) ∧
    (execute_tool_call secDelW browserOkW stInitW ⟨"frobnicate", []⟩).2 = [] ∧
    ("seconds" ∈ dispatchIndexedKeys "wait") ∧
    (∃ e, call_tool browserOkW stInitW "wait" [] =
      ([("success", JVal.bool false), ("error", JVal.str e)], stInitW, [])) := by
  have h := c7_amended_unknown_or_missing_indexed secDelW browserOkW stInitW "frobnicate"
    ([] : Args)
  have h2 := c7_amended_unknown_or_missing_indexed secDelW browserOkW stInitW "wait"
    ([] : Args)
  refine ⟨by decide, ?_, by decide, h2.2 "seconds" (by decide) rfl⟩
  rw [h.1 (by decide)]

/-- C10.  The `task_complete` branch always sets `task_completed` (halting the
`while not self.task_completed ...` loop at its next check) and performs no
browser action; when the `success` argument is absent the recorded result
defaults to `success = True`, and when `result` is absent the result text
defaults to `""`. -/
theorem c10_task_complete_defaults (browser : BrowserOracle) (st : OrchState)
    (args : Args) :
    (call_tool browser st "task_complete" args).2.1.task_completed = true ∧
    (call_tool browser st "task_complete" args).2.2 = [] ∧
    (args.get? "success" = none →
      ((call_tool browser st "task_complete" args).2.1.task_result.map
        (fun r => r.success)) = some true) ∧
    (args.get? "result" = none →
      ((call_tool browser st "task_complete" args).2.1.task_result.map
        (fun r => r.result)) = some "") := by
  have hct : call_tool browser st "task_complete" args =
      ([("success", JVal.bool true), ("message", JVal.str "Задача завершена")],
       { st with task_completed := true,
                 task_result := some (task_complete_result args st.current_step) }, []) := rfl
  rw [hct]
  refine ⟨rfl, rfl, ?_, ?_⟩
  · intro hs
    show some (args.getBool "success" true) = some true
    unfold Args.getBool
    rw [hs]
  · intro hr
    show some (args.getStr "result" "") = some ""
    unfold Args.getStr
    rw [hr]

/-- Witness for C10: a `task_complete` call with both arguments absent. -/
theorem c10_task_complete_defaults_witness :
    (call_tool browserOkW stInitW "task_complete" []).2.1.task_completed = true ∧
    (call_tool browserOkW stInitW "task_complete" []).2.2 = [] ∧
    ((call_tool browserOkW stInitW "task_complete" []).2.1.task_result.map
      (fun r => r.success)) = some true ∧
    ((call_tool browserOkW stInitW "task_complete" []).2.1.task_result.map
      (fun r => r.result)) = some "" := by
  have h := c10_task_complete_defaults browserOkW stInitW []
  exact ⟨h.1, h.2.1, h.2.2.1 rfl, h.2.2.2 rfl⟩

/-- C3 is a code bug: `execute_task` announces (source comment, line 79) and
the spec requires that the conversation history be cleared at the start of a
new task, but `clear_history` is never called — only the system message is
re-seeded.  At the failing input (an orchestrator that already ran a task, its
buffer holding a message of that task) the INIT phase leaves the old message
in the deque, and the first buffer the new task would hand to the
decision-maker still contains it. -/
theorem c3_history_not_cleared_on_new_task :
    (execute_task_init tmplW stPrevTask "вторая задача").ctx.messageHistory =
      [⟨"user", "сообщение предыдущей задачи"⟩, ⟨"user", "вторая задача"⟩] ∧
    (execute_task_init tmplW stPrevTask "вторая задача").ctx.systemMessage =
      ⟨"system", "SYSTEM PROMPT"⟩ ∧
    (⟨"user", "сообщение предыдущей задачи"⟩ : Message) ∈
      (((execute_task_init tmplW stPrevTask "вторая задача").ctx.get_messages
        tcLen4 true).1) := by
  refine ⟨by decide, by decide, by decide⟩

end AIBrowserAgent
